import Mathlib

/-!
Shallow embedding of the geotagger core (`main.py`): nearest-timestamp
matching against a GPX track, decimal-degree to degrees/minutes/seconds
conversion, and construction of the EXIF GPS record.  Python floats are
modelled as rationals; Python exceptions are modelled with `Except`.
-/

/-- Python runtime errors that the embedded code can raise. -/
inductive PyErr where
  | indexError
  | zeroDivisionError
deriving DecidableEq, Repr

instance {ε α : Type} [DecidableEq ε] [DecidableEq α] : DecidableEq (Except ε α) :=
  fun a b =>
    match a, b with
    | .ok x, .ok y =>
      if h : x = y then .isTrue (by rw [h]) else .isFalse (fun hh => h (Except.ok.inj hh))
    | .error e, .error f =>
      if h : e = f then .isTrue (by rw [h]) else .isFalse (fun hh => h (Except.error.inj hh))
    | .ok _, .error _ => .isFalse (fun hh => Except.noConfusion hh)
    | .error _, .ok _ => .isFalse (fun hh => Except.noConfusion hh)

/-- Python `int()`: truncation toward zero. -/
def pyInt (x : ℚ) : ℤ := if x < 0 then -⌊-x⌋ else ⌊x⌋

/-- Python float `%` for a nonzero modulus (the result follows the sign of
the modulus; all moduli in this program are positive). -/
def pyMod (x y : ℚ) : ℚ := x - y * ⌊x / y⌋

/-- Python float `//` (floor division), result as a float. -/
def pyFloorDiv (x y : ℚ) : ℚ := (⌊x / y⌋ : ℚ)

/-- `np.searchsorted(a, v)` with the default `side="left"`: for `a` sorted
ascending, the first index whose element is `≥ v` (length of `a` if none). -/
def np_searchsorted (a : List ℚ) (v : ℚ) : ℕ := a.findIdx (fun t => decide (v ≤ t))

/-- numpy scalar indexing `a[i]`: negative indices count from the end;
out-of-bounds raises `IndexError`. -/
def npIndex (a : List ℚ) (i : ℤ) : Except PyErr ℚ :=
  let n : ℤ := a.length
  let j : ℤ := if i < 0 then i + n else i
  if 0 ≤ j ∧ j < n then .ok (a.getD j.toNat 0) else .error .indexError

/-- Normalisation of one slice endpoint against a length `n`, as in
Python/numpy basic slicing: negative endpoints count from the end and
everything is clamped into `[0, n]`. -/
def npSliceIdx (n : ℕ) (x : ℤ) : ℕ := if x < 0 then (x + n).toNat else min x.toNat n

/-- numpy basic slice `a[start:stop]` (step 1). Never raises. -/
def npSlice (a : List ℚ) (start stop : ℤ) : List ℚ :=
  (a.take (npSliceIdx a.length stop)).drop (npSliceIdx a.length start)

/-- `ndarray.mean()`: `none` stands for the NaN produced on an empty
array; every comparison against NaN is false in Python. -/
def npMean (a : List ℚ) : Option ℚ :=
  if a.isEmpty then none else some (a.sum / (a.length : ℚ))

/-- `nearest_gpx_point(times, photo_time)` from `main.py`:
`i = np.searchsorted(times, photo_time)`; return `i` if
`photo_time == times[i]` (which raises `IndexError` when `i == len(times)`)
or `photo_time >= times[i-1:i+1].mean()`, else `i - 1`. -/
def nearest_gpx_point (times : List ℚ) (photo_time : ℚ) : Except PyErr ℤ :=
  let i := np_searchsorted times photo_time
  match npIndex times (i : ℤ) with
  | .error e => .error e
  | .ok ti =>
    if photo_time = ti then .ok (i : ℤ)
    else
      match npMean (npSlice times ((i : ℤ) - 1) ((i : ℤ) + 1)) with
      | none => .ok ((i : ℤ) - 1)
      | some m => if m ≤ photo_time then .ok (i : ℤ) else .ok ((i : ℤ) - 1)

/-- `PRECISION` from `main.py`. -/
def PRECISION : ℤ := 10000

/-- `to_degrees_minutes_seconds(dec, lon)` from `main.py`.  The Python
expression `dec % degrees` raises `ZeroDivisionError` when `degrees == 0`,
i.e. whenever `abs(dec) < 1`; that test is hoisted in front of the (total)
rational `pyMod` here. -/
def to_degrees_minutes_seconds (dec : ℚ) (lon : Bool) :
    Except PyErr (ℤ × ℤ × ℤ × String) :=
  let ref : String :=
    if dec < 0 ∧ lon = true then "W"
    else if dec < 0 ∧ lon = false then "S"
    else if lon = true then "E"
    else "N"
  let a := |dec|
  let degrees : ℤ := ⌊a⌋
  if degrees = 0 then .error .zeroDivisionError
  else
    let frac := pyMod a (degrees : ℚ)
    let minutes : ℤ := pyInt (pyFloorDiv (frac * 3600) 60)
    let seconds : ℤ := ⌊pyMod (frac * 3600) 60 * (PRECISION : ℚ)⌋
    .ok (degrees, minutes, seconds, ref)

/-- The GPS dictionary assembled by `build_gps_dict` (the piexif tag
constants are fixed keys, modelled as record fields). -/
structure GPSDict where
  gpsLongitude : List (ℤ × ℤ)
  gpsLongitudeRef : String
  gpsLatitude : List (ℤ × ℤ)
  gpsLatitudeRef : String
  gpsAltitude : List (ℤ × ℤ)
  gpsAltitudeRef : ℤ
deriving DecidableEq, Repr

/-- `build_gps_dict(elev, lon_dms, lat_dms)` from `main.py`. -/
def build_gps_dict (elev : ℚ) (lon_dms lat_dms : ℤ × ℤ × ℤ × String) : GPSDict :=
  { gpsLongitude := [(lon_dms.1, 1), (lon_dms.2.1, 1), (lon_dms.2.2.1, PRECISION)]
    gpsLongitudeRef := lon_dms.2.2.2
    gpsLatitude := [(lat_dms.1, 1), (lat_dms.2.1, 1), (lat_dms.2.2.1, PRECISION)]
    gpsLatitudeRef := lat_dms.2.2.2
    gpsAltitude := [(pyInt elev, 1)]
    gpsAltitudeRef := 0 }

/-- The parsing loop of `parse_gpx` from `main.py`, after the fiona I/O has
produced the raw track rows `(time, elevation, longitude, latitude)`.  The
two early-return guards (missing file, missing `track_points` layer) are the
boolean flags; the loop itself appends every row's time and
`(ele,) + coordinates` unconditionally — there is no ordering check. -/
def parse_gpx (fileExists hasTrackPoints : Bool) (rows : List (ℚ × ℚ × ℚ × ℚ)) :
    List ℚ × List (ℚ × ℚ × ℚ) :=
  if fileExists = false then ([], [])
  else if hasTrackPoints = false then ([], [])
  else (rows.map (fun r => r.1), rows.map (fun r => (r.2.1, r.2.2.1, r.2.2.2)))

/-- Python list indexing `coords[index]`: negative indices count from the
end; out-of-bounds raises `IndexError`. -/
def pyListGet (l : List (ℚ × ℚ × ℚ)) (i : ℤ) : Except PyErr (ℚ × ℚ × ℚ) :=
  let n : ℤ := l.length
  let j : ℤ := if i < 0 then i + n else i
  if 0 ≤ j ∧ j < n then .ok (l.getD j.toNat (0, 0, 0)) else .error .indexError

/-- The body of the `for im in images` loop in `main()`: match the photo's
adjusted timestamp, look up the coordinates, encode both angles, build the
GPS dict.  Any exception propagates. -/
def process_image (times : List ℚ) (coords : List (ℚ × ℚ × ℚ)) (taken_at : ℚ) :
    Except PyErr GPSDict :=
  match nearest_gpx_point times taken_at with
  | .error e => .error e
  | .ok index =>
    match pyListGet coords index with
    | .error e => .error e
    | .ok ⟨elev, lon, lat⟩ =>
      match to_degrees_minutes_seconds lon true with
      | .error e => .error e
      | .ok lon_dms =>
        match to_degrees_minutes_seconds lat false with
        | .error e => .error e
        | .ok lat_dms => .ok (build_gps_dict elev lon_dms lat_dms)

/-- The batch loop of `main()` over the images (each image represented by
its adjusted capture timestamp).  There is no per-image `try`/`except` in
the source: the first exception aborts the whole loop, and the already
processed prefix is all that was written. -/
def main_loop (times : List ℚ) (coords : List (ℚ × ℚ × ℚ)) :
    List ℚ → Except PyErr (List GPSDict)
  | [] => .ok []
  | t :: rest =>
    match process_image times coords t with
    | .error e => .error e
    | .ok g =>
      match main_loop times coords rest with
      | .error e => .error e
      | .ok gs => .ok (g :: gs)

/-! ## Supporting lemmas -/

lemma getD_of_lt (l : List ℚ) {j : ℕ} (h : j < l.length) : l.getD j 0 = l[j] := by
  simp [List.getD_eq_getElem?_getD, List.getElem?_eq_getElem h]

lemma sorted_getD_mono {a : List ℚ} (hs : a.Sorted (· ≤ ·)) {i j : ℕ}
    (hij : i ≤ j) (hj : j < a.length) : a.getD i 0 ≤ a.getD j 0 := by
  rw [getD_of_lt a (lt_of_le_of_lt hij hj), getD_of_lt a hj]
  exact @List.Sorted.rel_get_of_le ℚ (· ≤ ·) _ a hs ⟨i, lt_of_le_of_lt hij hj⟩ ⟨j, hj⟩ hij

lemma searchsorted_le_length (a : List ℚ) (v : ℚ) : np_searchsorted a v ≤ a.length :=
  List.findIdx_le_length _

lemma searchsorted_spec_lt {a : List ℚ} {v : ℚ} {j : ℕ}
    (hj : j < np_searchsorted a v) : a.getD j 0 < v := by
  have hlen : j < a.length := lt_of_lt_of_le hj (searchsorted_le_length a v)
  have h := @List.not_of_lt_findIdx ℚ (fun t => decide (v ≤ t)) a j hj
  rw [getD_of_lt a hlen]
  simpa using h

lemma searchsorted_spec_ge {a : List ℚ} {v : ℚ}
    (h : np_searchsorted a v < a.length) : v ≤ a.getD (np_searchsorted a v) 0 := by
  have hp := @List.findIdx_getElem ℚ (fun t => decide (v ≤ t)) a h
  rw [getD_of_lt a h]
  simpa using hp

lemma searchsorted_lt_length {a : List ℚ} {v : ℚ} (hne : a ≠ [])
    (hhi : v ≤ a.getD (a.length - 1) 0) : np_searchsorted a v < a.length := by
  have hlen : 0 < a.length := List.length_pos.mpr hne
  have hlast : a.length - 1 < a.length := by omega
  apply List.findIdx_lt_length_of_exists
  refine ⟨a[a.length - 1], List.getElem_mem hlast, ?_⟩
  rw [getD_of_lt a hlast] at hhi
  simpa using hhi

lemma searchsorted_le_of_ge {a : List ℚ} {v : ℚ} {k : ℕ}
    (h : v ≤ a.getD k 0) : np_searchsorted a v ≤ k := by
  by_contra hlt
  push_neg at hlt
  exact absurd (searchsorted_spec_lt hlt) (not_lt.mpr h)

lemma searchsorted_eq_succ {a : List ℚ} {v : ℚ} {k : ℕ}
    (hs : a.Sorted (· ≤ ·)) (hk : k + 1 < a.length)
    (hka : a.getD k 0 < v) (hkb : v ≤ a.getD (k + 1) 0) :
    np_searchsorted a v = k + 1 := by
  refine le_antisymm (searchsorted_le_of_ge hkb) ?_
  apply List.le_findIdx_of_not hk
  intro j hj
  have : a.getD j 0 < v :=
    lt_of_le_of_lt (sorted_getD_mono hs (by omega) (by omega)) hka
  rw [getD_of_lt a (by omega)] at this
  simpa using not_le.mpr this

lemma npIndex_ok {a : List ℚ} {i : ℕ} (h : i < a.length) :
    npIndex a (i : ℤ) = .ok (a.getD i 0) := by
  have h0 : ¬((i : ℤ) < 0) := by omega
  have h1 : (0 : ℤ) ≤ (i : ℤ) ∧ (i : ℤ) < (a.length : ℤ) := by omega
  simp only [npIndex, if_neg h0, if_pos h1, Int.toNat_natCast]

lemma npMean_pair (x y : ℚ) : npMean [x, y] = some ((x + y) / 2) := by
  simp [npMean]

lemma npSlice_pair {a : List ℚ} {i : ℕ} (h1 : 1 ≤ i) (h2 : i < a.length) :
    npSlice a ((i : ℤ) - 1) ((i : ℤ) + 1) = [a.getD (i - 1) 0, a.getD i 0] := by
  have hstart : npSliceIdx a.length ((i : ℤ) - 1) = i - 1 := by
    simp only [npSliceIdx, if_neg (by omega : ¬((i : ℤ) - 1 < 0))]
    omega
  have hstop : npSliceIdx a.length ((i : ℤ) + 1) = i + 1 := by
    simp only [npSliceIdx, if_neg (by omega : ¬((i : ℤ) + 1 < 0))]
    omega
  have hi1 : i - 1 < a.length := by omega
  have hdrop1 : a.drop (i - 1) = a[i - 1] :: a.drop i := by
    rw [List.drop_eq_getElem_cons hi1, show i - 1 + 1 = i by omega]
  have hdrop2 : a.drop i = a[i] :: a.drop (i + 1) := List.drop_eq_getElem_cons h2
  rw [npSlice, hstart, hstop, show i + 1 = (i - 1) + 2 by omega,
    ← List.take_drop (i - 1) 2 a, hdrop1, hdrop2,
    getD_of_lt a hi1, getD_of_lt a h2]
  rfl

/-- The matcher after a successful `times[i]` lookup: the source's
if/else over the exact hit and the two-point mean. -/
lemma nearest_eval {times : List ℚ} {q : ℚ}
    (h : np_searchsorted times q < times.length) :
    nearest_gpx_point times q =
      (if q = times.getD (np_searchsorted times q) 0
       then .ok (np_searchsorted times q : ℤ)
       else
         match npMean (npSlice times ((np_searchsorted times q : ℤ) - 1)
             ((np_searchsorted times q : ℤ) + 1)) with
         | none => .ok ((np_searchsorted times q : ℤ) - 1)
         | some m =>
           if m ≤ q then .ok (np_searchsorted times q : ℤ)
           else .ok ((np_searchsorted times q : ℤ) - 1)) := by
  simp only [nearest_gpx_point, npIndex_ok h]

/-- The matcher in the generic interior situation: the hit `times[i]` is a
strict overshoot, so the result is decided by the two-point mean. -/
lemma nearest_eval_mid {times : List ℚ} {q : ℚ}
    (hsl : np_searchsorted times q < times.length)
    (hs1 : 1 ≤ np_searchsorted times q)
    (hexact : q ≠ times.getD (np_searchsorted times q) 0) :
    nearest_gpx_point times q =
      (if (times.getD (np_searchsorted times q - 1) 0 +
            times.getD (np_searchsorted times q) 0) / 2 ≤ q
       then .ok (np_searchsorted times q : ℤ)
       else .ok ((np_searchsorted times q : ℤ) - 1)) := by
  rw [nearest_eval hsl, if_neg hexact, npSlice_pair hs1 hsl, npMean_pair]

/-- Within-range correctness of the matcher: for a sorted non-empty track
and a query between the first and last timestamps, the returned index is a
nearest one, and an exact-midpoint query between two strictly separated
neighbours lands on the later one. -/
lemma nearest_spec (times : List ℚ) (q : ℚ) (hs : times.Sorted (· ≤ ·))
    (hne : times ≠ []) (hlo : times.getD 0 0 ≤ q)
    (hhi : q ≤ times.getD (times.length - 1) 0) :
    ∃ i : ℕ, i < times.length ∧ nearest_gpx_point times q = .ok (i : ℤ) ∧
      (∀ j, j < times.length → |times.getD i 0 - q| ≤ |times.getD j 0 - q|) ∧
      (∀ k, k + 1 < times.length → times.getD k 0 < q → q < times.getD (k + 1) 0 →
        q - times.getD k 0 = times.getD (k + 1) 0 - q → i = k + 1) := by
  have hsl : np_searchsorted times q < times.length := searchsorted_lt_length hne hhi
  have hge : q ≤ times.getD (np_searchsorted times q) 0 := searchsorted_spec_ge hsl
  set s := np_searchsorted times q with hdef
  by_cases hexact : q = times.getD s 0
  · refine ⟨s, hsl, by rw [nearest_eval hsl, ← hdef, if_pos hexact], ?_, ?_⟩
    · intro j hj
      rw [← hexact]
      simp
    · intro k hk hka hkb hmid
      have hseq : s = k + 1 := hdef.symm ▸ searchsorted_eq_succ hs hk hka (le_of_lt hkb)
      rw [hseq] at hexact
      exact absurd hexact (ne_of_lt hkb)
  · have hlt : q < times.getD s 0 := lt_of_le_of_ne hge hexact
    have hs1 : 1 ≤ s := by
      rcases Nat.eq_zero_or_pos s with h0 | h0
      · rw [h0] at hlt
        exact absurd (lt_of_le_of_lt hlo hlt) (lt_irrefl _)
      · exact h0
    have hprev : times.getD (s - 1) 0 < q := searchsorted_spec_lt (by omega)
    rw [nearest_eval_mid hsl hs1 hexact, ← hdef]
    by_cases hm : (times.getD (s - 1) 0 + times.getD s 0) / 2 ≤ q
    · refine ⟨s, hsl, by rw [if_pos hm], ?_, ?_⟩
      · intro j hj
        rcases le_or_lt s j with hj2 | hj2
        · have hmono : times.getD s 0 ≤ times.getD j 0 := sorted_getD_mono hs hj2 hj
          rcases abs_cases (times.getD s 0 - q) with ⟨e1, f1⟩ | ⟨e1, f1⟩ <;>
            rcases abs_cases (times.getD j 0 - q) with ⟨e2, f2⟩ | ⟨e2, f2⟩ <;>
            rw [e1, e2] <;> linarith
        · have hmono : times.getD j 0 ≤ times.getD (s - 1) 0 :=
            sorted_getD_mono hs (by omega) (by omega)
          rcases abs_cases (times.getD s 0 - q) with ⟨e1, f1⟩ | ⟨e1, f1⟩ <;>
            rcases abs_cases (times.getD j 0 - q) with ⟨e2, f2⟩ | ⟨e2, f2⟩ <;>
            rw [e1, e2] <;> linarith
      · intro k hk hka hkb _
        exact hdef.symm ▸ searchsorted_eq_succ hs hk hka (le_of_lt hkb)
    · push_neg at hm
      refine ⟨s - 1, by omega, ?_, ?_, ?_⟩
      · rw [if_neg (not_le.mpr hm)]
        congr 1
        omega
      · intro j hj
        rcases le_or_lt s j with hj2 | hj2
        · have hmono : times.getD s 0 ≤ times.getD j 0 := sorted_getD_mono hs hj2 hj
          rcases abs_cases (times.getD (s - 1) 0 - q) with ⟨e1, f1⟩ | ⟨e1, f1⟩ <;>
            rcases abs_cases (times.getD j 0 - q) with ⟨e2, f2⟩ | ⟨e2, f2⟩ <;>
            rw [e1, e2] <;> linarith
        · have hmono : times.getD j 0 ≤ times.getD (s - 1) 0 :=
            sorted_getD_mono hs (by omega) (by omega)
          rcases abs_cases (times.getD (s - 1) 0 - q) with ⟨e1, f1⟩ | ⟨e1, f1⟩ <;>
            rcases abs_cases (times.getD j 0 - q) with ⟨e2, f2⟩ | ⟨e2, f2⟩ <;>
            rw [e1, e2] <;> linarith
      · intro k hk hka hkb hmid
        have hseq : s = k + 1 := hdef.symm ▸ searchsorted_eq_succ hs hk hka (le_of_lt hkb)
        have heq : (times.getD (s - 1) 0 + times.getD s 0) / 2 = q := by
          rw [hseq, show k + 1 - 1 = k by omega]
          linarith
        exact absurd heq (ne_of_gt hm)

/-- Exact-hit behaviour of the matcher: when the query occurs in a sorted
track, the exact-match short circuit fires at the first occurrence. -/
lemma nearest_exact (times : List ℚ) (q : ℚ) (hs : times.Sorted (· ≤ ·))
    (hq : q ∈ times) :
    ∃ i : ℕ, i < times.length ∧ nearest_gpx_point times q = .ok (i : ℤ) ∧
      times.getD i 0 = q ∧ ∀ j, j < i → times.getD j 0 ≠ q := by
  obtain ⟨k, hk, hkq⟩ := List.getElem_of_mem hq
  have hkd : times.getD k 0 = q := by rw [getD_of_lt times hk, hkq]
  have hle : np_searchsorted times q ≤ k := searchsorted_le_of_ge (le_of_eq hkd.symm)
  have hsl : np_searchsorted times q < times.length := lt_of_le_of_lt hle hk
  have heq : times.getD (np_searchsorted times q) 0 = q := by
    have h1 : q ≤ times.getD (np_searchsorted times q) 0 := searchsorted_spec_ge hsl
    have h2 : times.getD (np_searchsorted times q) 0 ≤ times.getD k 0 :=
      sorted_getD_mono hs hle hk
    rw [hkd] at h2
    exact le_antisymm h2 h1
  refine ⟨np_searchsorted times q, hsl, ?_, heq, ?_⟩
  · rw [nearest_eval hsl, if_pos heq.symm]
  · intro j hj
    exact ne_of_lt (searchsorted_spec_lt hj)

lemma floor_div_floor_eq_one {a : ℚ} (h : 1 ≤ a) : ⌊a / (⌊a⌋ : ℚ)⌋ = 1 := by
  have h1 : (1 : ℤ) ≤ ⌊a⌋ := Int.le_floor.mpr (by exact_mod_cast h)
  have h1q : (1 : ℚ) ≤ (⌊a⌋ : ℚ) := by exact_mod_cast h1
  have hpos : (0 : ℚ) < (⌊a⌋ : ℚ) := by linarith
  have hle : ((⌊a⌋ : ℚ)) ≤ a := Int.floor_le a
  have hlt : a < ⌊a⌋ + 1 := Int.lt_floor_add_one a
  rw [Int.floor_eq_iff]
  constructor
  · rw [le_div_iff₀ hpos]
    push_cast
    linarith
  · rw [div_lt_iff₀ hpos]
    push_cast
    linarith

lemma pyInt_intCast_nonneg {k : ℤ} (h : 0 ≤ k) : pyInt (k : ℚ) = k := by
  rw [pyInt, if_neg (by exact_mod_cast not_lt.mpr h), Int.floor_intCast]

/-- Full evaluation of the encoder on inputs of magnitude at least one
degree (where the source does not raise). -/
lemma to_dms_eval {dec : ℚ} (lon : Bool) (h : 1 ≤ |dec|) :
    to_degrees_minutes_seconds dec lon =
      .ok (⌊|dec|⌋, ⌊Int.fract |dec| * 60⌋,
        ⌊(Int.fract |dec| * 3600 - 60 * ⌊Int.fract |dec| * 60⌋) * 10000⌋,
        if dec < 0 ∧ lon = true then "W"
        else if dec < 0 ∧ lon = false then "S"
        else if lon = true then "E" else "N") := by
  have h1 : (1 : ℤ) ≤ ⌊|dec|⌋ := Int.le_floor.mpr (by exact_mod_cast h)
  have hne : ¬(⌊|dec|⌋ = 0) := by omega
  have hfrac : pyMod |dec| ((⌊|dec|⌋ : ℤ) : ℚ) = Int.fract |dec| := by
    rw [pyMod, floor_div_floor_eq_one h, Int.fract]
    push_cast
    ring
  have hdiv : (Int.fract |dec| * 3600) / 60 = Int.fract |dec| * 60 := by ring
  have hmin : pyInt (pyFloorDiv (Int.fract |dec| * 3600) 60) = ⌊Int.fract |dec| * 60⌋ := by
    rw [pyFloorDiv, hdiv]
    exact pyInt_intCast_nonneg
      (Int.floor_nonneg.mpr (mul_nonneg (Int.fract_nonneg _) (by norm_num)))
  have hsec : pyMod (Int.fract |dec| * 3600) 60 =
      Int.fract |dec| * 3600 - 60 * ⌊Int.fract |dec| * 60⌋ := by
    rw [pyMod, hdiv]
  simp only [to_degrees_minutes_seconds, if_neg hne, hfrac, hmin, hsec]
  norm_num [PRECISION]

lemma nearest_nil (q : ℚ) : nearest_gpx_point [] q = .error .indexError := by
  simp [nearest_gpx_point, np_searchsorted, npIndex]

/-! ## Claims -/

/-- C3: the encoder is claimed never to divide or mod by a zero `degrees`
value, in particular on every input of magnitude below one degree.  In the
source, `dec % degrees` raises `ZeroDivisionError` whenever
`degrees = floor(abs(dec)) = 0`, e.g. at `dec = 0.5`; the concrete scenario
`dec=1.0, lon=False -> (1,0,0,"N")` does hold. -/
theorem c3_zero_degrees_division :
    to_degrees_minutes_seconds (1/2) false = .error .zeroDivisionError ∧
    to_degrees_minutes_seconds 1 false = .ok (1, 0, 0, "N") := by
  constructor
  · have habs : |(1/2 : ℚ)| = 1/2 := abs_of_pos (by norm_num)
    simp only [to_degrees_minutes_seconds, habs]
    norm_num
  · rw [to_dms_eval false (by norm_num)]
    norm_num [Int.fract]

/-- C5: out-of-range queries are claimed to clamp to index `0` or `N-1`.
In the source, a query strictly below all timestamps returns `-1` (the
empty slice's NaN mean makes the comparison false), and a query strictly
above all timestamps raises `IndexError` from `times[i]` with `i = N`. -/
theorem c5_out_of_range_does_not_clamp :
    nearest_gpx_point [100, 200, 300] 50 = .ok (-1) ∧
    nearest_gpx_point [100, 200, 300] 400 = .error .indexError := by
  constructor <;>
    · simp only [nearest_gpx_point, np_searchsorted, npIndex, npSlice, npSliceIdx, npMean,
        List.findIdx_cons, List.findIdx_nil]
      norm_num

/-- C6 (counterexample): an index error is not exclusive to the empty
series — the matcher also fails on a non-empty series when the query
exceeds every timestamp. -/
theorem c6_nonempty_series_also_fails :
    nearest_gpx_point [10, 20] 25 = .error .indexError ∧
    ([10, 20] : List ℚ).length ≠ 0 := by
  constructor
  · simp only [nearest_gpx_point, np_searchsorted, npIndex, npSlice, npSliceIdx, npMean,
      List.findIdx_cons, List.findIdx_nil]
    norm_num
  · simp

/-- C6 (amended): on an empty series every query fails with the numpy
index error raised by `times[i]` (there is no dedicated empty-series
error class in the source). -/
theorem c6_empty_series_always_fails (q : ℚ) :
    nearest_gpx_point [] q = .error .indexError :=
  nearest_nil q

/-- C7: a failure on one image is claimed to be caught and logged so the
batch continues; in the source the loop has no per-image fault boundary,
so with an empty series the first image's `IndexError` aborts the whole
batch instead of each image being skipped. -/
theorem c7_no_per_image_isolation (coords : List (ℚ × ℚ × ℚ)) (t : ℚ)
    (rest : List ℚ) :
    main_loop [] coords (t :: rest) = .error .indexError := by
  simp [main_loop, process_image, nearest_nil]

/-- C8 (counterexample): rows with decreasing timestamps are accepted by
the construction and stored in their original, unsorted order; nothing is
rejected. -/
theorem c8_unsorted_rows_accepted :
    parse_gpx true true [(200, 5, 6, 7), (100, 8, 9, 10)] =
      ([200, 100], [(5, 6, 7), (8, 9, 10)]) ∧
    ¬ ([200, 100] : List ℚ).Sorted (· ≤ ·) := by
  constructor
  · rfl
  · norm_num [List.sorted_cons]

/-- C8 (amended): the parsing loop performs no ordering validation at all:
whatever rows the track file yields are stored unchanged, in the given
order. -/
theorem c8_construction_never_rejects (rows : List (ℚ × ℚ × ℚ × ℚ)) :
    (parse_gpx true true rows).1 = rows.map (fun r => r.1) ∧
    (parse_gpx true true rows).2 = rows.map (fun r => (r.2.1, r.2.2.1, r.2.2.2)) ∧
    (parse_gpx true true rows).1.length = rows.length := by
  refine ⟨rfl, rfl, ?_⟩
  simp [parse_gpx]

/-- C9: the altitude is stored as the single rational `(int(elev), 1)` —
`int()` truncates toward zero, i.e. it is the ceiling for negative
elevations, not the floor — and `GPSAltitudeRef` is always `0` regardless
of the sign of the elevation. -/
theorem c9_altitude_encoding (elev : ℚ) (lon_dms lat_dms : ℤ × ℤ × ℤ × String) :
    (build_gps_dict elev lon_dms lat_dms).gpsAltitude = [(pyInt elev, 1)] ∧
    (build_gps_dict elev lon_dms lat_dms).gpsAltitudeRef = 0 ∧
    pyInt elev = (if elev < 0 then ⌈elev⌉ else ⌊elev⌋) := by
  refine ⟨rfl, rfl, ?_⟩
  rw [pyInt]
  by_cases h : elev < 0
  · rw [if_pos h, if_pos h, Int.floor_neg]
    simp
  · rw [if_neg h, if_neg h]

/-- C1: for a sorted non-empty track and an in-range query, the matcher
returns an index whose timestamp distance to the query is minimal, with an
exact-midpoint tie between two strictly separated neighbours resolved to
the later index; concretely on `[100,200,300]`: `140 -> 0`, `150 -> 1`,
`260 -> 2`. -/
theorem c1_nearest_match_correct :
    (∀ (times : List ℚ) (q : ℚ), times.Sorted (· ≤ ·) → times ≠ [] →
      times.getD 0 0 ≤ q → q ≤ times.getD (times.length - 1) 0 →
      ∃ i : ℕ, i < times.length ∧ nearest_gpx_point times q = .ok (i : ℤ) ∧
        (∀ j, j < times.length → |times.getD i 0 - q| ≤ |times.getD j 0 - q|) ∧
        (∀ k, k + 1 < times.length → times.getD k 0 < q → q < times.getD (k + 1) 0 →
          q - times.getD k 0 = times.getD (k + 1) 0 - q → i = k + 1)) ∧
    nearest_gpx_point [100, 200, 300] 140 = .ok 0 ∧
    nearest_gpx_point [100, 200, 300] 150 = .ok 1 ∧
    nearest_gpx_point [100, 200, 300] 260 = .ok 2 := by
  refine ⟨nearest_spec, ?_, ?_, ?_⟩ <;>
    · simp only [nearest_gpx_point, np_searchsorted, npIndex, npSlice, npSliceIdx, npMean,
        List.findIdx_cons, List.findIdx_nil]
      norm_num
      simp
      norm_num

/-- C1 witness: the general statement applied to the spec's concrete
series `[100,200,300]` with the midpoint query `150`. -/
theorem c1_nearest_match_correct_witness :
    (([100, 200, 300] : List ℚ).Sorted (· ≤ ·) ∧ ([100, 200, 300] : List ℚ) ≠ [] ∧
      ([100, 200, 300] : List ℚ).getD 0 0 ≤ 150 ∧
      (150 : ℚ) ≤ ([100, 200, 300] : List ℚ).getD (([100, 200, 300] : List ℚ).length - 1) 0) ∧
    (∃ i : ℕ, i < ([100, 200, 300] : List ℚ).length ∧
      nearest_gpx_point [100, 200, 300] 150 = .ok (i : ℤ) ∧
      (∀ j, j < ([100, 200, 300] : List ℚ).length →
        |([100, 200, 300] : List ℚ).getD i 0 - 150| ≤
          |([100, 200, 300] : List ℚ).getD j 0 - 150|) ∧
      (∀ k, k + 1 < ([100, 200, 300] : List ℚ).length →
        ([100, 200, 300] : List ℚ).getD k 0 < 150 →
        (150 : ℚ) < ([100, 200, 300] : List ℚ).getD (k + 1) 0 →
        (150 : ℚ) - ([100, 200, 300] : List ℚ).getD k 0 =
          ([100, 200, 300] : List ℚ).getD (k + 1) 0 - 150 → i = k + 1)) := by
  have hsorted : ([100, 200, 300] : List ℚ).Sorted (· ≤ ·) := by
    norm_num [List.sorted_cons]
  have hne : ([100, 200, 300] : List ℚ) ≠ [] := by simp
  have hlo : ([100, 200, 300] : List ℚ).getD 0 0 ≤ 150 := by norm_num
  have hhi : (150 : ℚ) ≤
      ([100, 200, 300] : List ℚ).getD (([100, 200, 300] : List ℚ).length - 1) 0 := by
    norm_num
  exact ⟨⟨hsorted, hne, hlo, hhi⟩,
    c1_nearest_match_correct.1 [100, 200, 300] 150 hsorted hne hlo hhi⟩

/-- C10: when the query timestamp occurs in the sorted track (possibly at
several consecutive indices), the exact-match short circuit returns the
smallest index holding that timestamp. -/
theorem c10_exact_match_earliest_duplicate (times : List ℚ) (q : ℚ)
    (hs : times.Sorted (· ≤ ·)) (hq : q ∈ times) :
    ∃ i : ℕ, i < times.length ∧ nearest_gpx_point times q = .ok (i : ℤ) ∧
      times.getD i 0 = q ∧ ∀ j, j < i → times.getD j 0 ≠ q :=
  nearest_exact times q hs hq

/-- C10 witness: the duplicated timestamp `7` in `[5,7,7,9]` is matched at
its first occurrence. -/
theorem c10_exact_match_earliest_duplicate_witness :
    (([5, 7, 7, 9] : List ℚ).Sorted (· ≤ ·) ∧ (7 : ℚ) ∈ ([5, 7, 7, 9] : List ℚ)) ∧
    (∃ i : ℕ, i < ([5, 7, 7, 9] : List ℚ).length ∧
      nearest_gpx_point [5, 7, 7, 9] 7 = .ok (i : ℤ) ∧
      ([5, 7, 7, 9] : List ℚ).getD i 0 = 7 ∧
      ∀ j, j < i → ([5, 7, 7, 9] : List ℚ).getD j 0 ≠ 7) := by
  have hsorted : ([5, 7, 7, 9] : List ℚ).Sorted (· ≤ ·) := by
    norm_num [List.sorted_cons]
  have hmem : (7 : ℚ) ∈ ([5, 7, 7, 9] : List ℚ) := by norm_num
  exact ⟨⟨hsorted, hmem⟩, c10_exact_match_earliest_duplicate [5, 7, 7, 9] 7 hsorted hmem⟩

/-- C2 (counterexample): `d = 1/4` lies in the valid geodetic range, but
the encoder raises `ZeroDivisionError` there, so no sexagesimal tuple is
produced and no round-trip is possible. -/
theorem c2_small_angle_no_roundtrip :
    to_degrees_minutes_seconds (1/4) true = .error .zeroDivisionError := by
  have habs : |(1/4 : ℚ)| = 1/4 := abs_of_pos (by norm_num)
  simp only [to_degrees_minutes_seconds, habs]
  norm_num

/-- C2 (amended): for every decimal degree value of magnitude at least one
degree, the encoder succeeds and reconstructing
`degrees + minutes/60 + (seconds_scaled/10000)/3600` with the hemisphere
sign applied reproduces the input to within `1/10000` of an arc-second. -/
theorem c2_sexagesimal_roundtrip (d : ℚ) (lon : Bool) (h : 1 ≤ |d|) :
    ∃ (deg mins secs : ℤ) (ref : String),
      to_degrees_minutes_seconds d lon = .ok (deg, mins, secs, ref) ∧
      |(if ref = "S" ∨ ref = "W" then (-1 : ℚ) else 1) *
          ((deg : ℚ) + (mins : ℚ) / 60 + ((secs : ℚ) / 10000) / 3600) - d| ≤
        1 / 10000 / 3600 := by
  refine ⟨⌊|d|⌋, ⌊Int.fract |d| * 60⌋,
    ⌊(Int.fract |d| * 3600 - 60 * ⌊Int.fract |d| * 60⌋) * 10000⌋, _,
    to_dms_eval lon h, ?_⟩
  set f := Int.fract |d| with hf
  set M := ⌊f * 60⌋ with hM
  set S := ⌊(f * 3600 - 60 * (M : ℚ)) * 10000⌋ with hS
  have hS0 : (S : ℚ) ≤ (f * 3600 - 60 * (M : ℚ)) * 10000 := Int.floor_le _
  have hS1 : (f * 3600 - 60 * (M : ℚ)) * 10000 < S + 1 := Int.lt_floor_add_one _
  have habs : |d| = (⌊|d|⌋ : ℚ) + f := by
    rw [hf, Int.fract]
    ring
  have hkey : abs (((⌊|d|⌋ : ℚ) + (M : ℚ) / 60 + ((S : ℚ) / 10000) / 3600) - |d|) ≤
      1 / 10000 / 3600 := by
    rw [abs_le]
    constructor <;> linarith [habs]
  rw [abs_le] at hkey
  obtain ⟨hk1, hk2⟩ := hkey
  by_cases hd : d < 0
  · have habs2 : |d| = -d := abs_of_neg hd
    cases lon
    · have href : (if d < 0 ∧ (false : Bool) = true then "W"
          else if d < 0 ∧ (false : Bool) = false then "S"
          else if (false : Bool) = true then "E" else "N") = "S" := by
        simp [hd]
      rw [href, if_pos (Or.inl rfl : ("S" : String) = "S" ∨ ("S" : String) = "W"),
        abs_le]
      constructor <;> linarith [habs2]
    · have href : (if d < 0 ∧ (true : Bool) = true then "W"
          else if d < 0 ∧ (true : Bool) = false then "S"
          else if (true : Bool) = true then "E" else "N") = "W" := by
        simp [hd]
      rw [href, if_pos (Or.inr rfl : ("W" : String) = "S" ∨ ("W" : String) = "W"),
        abs_le]
      constructor <;> linarith [habs2]
  · have habs2 : |d| = d := abs_of_nonneg (not_lt.mp hd)
    cases lon
    · have href : (if d < 0 ∧ (false : Bool) = true then "W"
          else if d < 0 ∧ (false : Bool) = false then "S"
          else if (false : Bool) = true then "E" else "N") = "N" := by
        simp [hd]
      rw [href, if_neg (by simp : ¬(("N" : String) = "S" ∨ ("N" : String) = "W")),
        abs_le]
      constructor <;> linarith [habs2]
    · have href : (if d < 0 ∧ (true : Bool) = true then "W"
          else if d < 0 ∧ (true : Bool) = false then "S"
          else if (true : Bool) = true then "E" else "N") = "E" := by
        simp [hd]
      rw [href, if_neg (by simp : ¬(("E" : String) = "S" ∨ ("E" : String) = "W")),
        abs_le]
      constructor <;> linarith [habs2]

/-- C2 witness: the amended round-trip at the spec's example `d = 120`,
`is_longitude = true`. -/
theorem c2_sexagesimal_roundtrip_witness :
    (1 : ℚ) ≤ |(120 : ℚ)| ∧
    (∃ (deg mins secs : ℤ) (ref : String),
      to_degrees_minutes_seconds 120 true = .ok (deg, mins, secs, ref) ∧
      |(if ref = "S" ∨ ref = "W" then (-1 : ℚ) else 1) *
          ((deg : ℚ) + (mins : ℚ) / 60 + ((secs : ℚ) / 10000) / 3600) - 120| ≤
        1 / 10000 / 3600) :=
  ⟨by rw [abs_of_pos] <;> norm_num,
   c2_sexagesimal_roundtrip 120 true (by rw [abs_of_pos] <;> norm_num)⟩

/-- C4 (counterexample): the claim includes `d = 0` with
`is_longitude = true` yielding hemisphere `"E"`; in the source that call
raises `ZeroDivisionError` and returns no hemisphere at all. -/
theorem c4_zero_returns_nothing :
    to_degrees_minutes_seconds 0 true = .error .zeroDivisionError := by
  simp only [to_degrees_minutes_seconds, abs_zero]
  norm_num

/-- C4 (amended): whenever the encoder returns (magnitude at least one
degree), the hemisphere letter follows the sign/longitude rule: negative
with `lon` gives `"W"`, negative latitude gives `"S"`, non-negative with
`lon` gives `"E"`, non-negative latitude gives `"N"`. -/
theorem c4_hemisphere_rule (d : ℚ) (lon : Bool) (h : 1 ≤ |d|) :
    ∃ (deg mins secs : ℤ) (ref : String),
      to_degrees_minutes_seconds d lon = .ok (deg, mins, secs, ref) ∧
      (d < 0 → lon = true → ref = "W") ∧
      (d < 0 → lon = false → ref = "S") ∧
      (0 ≤ d → lon = true → ref = "E") ∧
      (0 ≤ d → lon = false → ref = "N") := by
  refine ⟨_, _, _, _, to_dms_eval lon h, ?_, ?_, ?_, ?_⟩
  · intro h1 h2
    rw [h2, if_pos ⟨h1, rfl⟩]
  · intro h1 h2
    rw [h2, if_neg (by simp), if_pos ⟨h1, rfl⟩]
  · intro h1 h2
    have hn := not_lt.mpr h1
    rw [h2, if_neg (fun hc => absurd hc.1 hn), if_neg (fun hc => absurd hc.1 hn),
      if_pos rfl]
  · intro h1 h2
    have hn := not_lt.mpr h1
    rw [h2, if_neg (fun hc => absurd hc.1 hn), if_neg (fun hc => absurd hc.1 hn),
      if_neg (by simp)]

/-- C4 witness: the spec's example `d = -45.5` as a latitude is labelled
`"S"`. -/
theorem c4_hemisphere_rule_witness :
    (1 : ℚ) ≤ |(-91/2 : ℚ)| ∧
    (∃ (deg mins secs : ℤ) (ref : String),
      to_degrees_minutes_seconds (-91/2) false = .ok (deg, mins, secs, ref) ∧
      ((-91/2 : ℚ) < 0 → false = true → ref = "W") ∧
      ((-91/2 : ℚ) < 0 → false = false → ref = "S") ∧
      ((0 : ℚ) ≤ -91/2 → false = true → ref = "E") ∧
      ((0 : ℚ) ≤ -91/2 → false = false → ref = "N")) :=
  ⟨by rw [abs_of_neg] <;> norm_num,
   c4_hemisphere_rule (-91/2) false (by rw [abs_of_neg] <;> norm_num)⟩
